import Mathlib

/-! Verification of the peer-connection pool manager (`src/peerGroup.js`) of the
bitcoin-net repository.  The JavaScript class is shallowly embedded as pure
state transformers over an explicit `PeerGroup` record.  Asynchronous callbacks
(timer fire, discovery-method completion, peer events) are modelled as separate
step functions the environment invokes; synchronous retry recursion is modelled
with explicit fuel, where `none` for every fuel value witnesses divergence. -/

namespace BitcoinNet

/-- JS default idiom `x || d` for numeric options: `undefined` and `0` are
falsy, so both select the default. -/
def jsOrNat : Option Nat → Nat → Nat
  | none, d => d
  | some 0, d => d
  | some (n+1), _ => n+1

/-- JS truthiness of an optional string field (`undefined` and `""` are falsy). -/
def truthyStrOpt : Option String → Bool
  | none => false
  | some s => s != ""

/-- JS truthiness of an optional numeric field (`undefined` and `0` are falsy). -/
def truthyNatOpt : Option Nat → Bool
  | none => false
  | some n => n != 0

/-- JS `Array.prototype.indexOf`: index of the first occurrence, `-1` if absent. -/
def jsIndexOf (x : Nat) : List Nat → Int
  | [] => -1
  | y :: ys =>
    if y = x then 0
    else if jsIndexOf x ys < 0 then -1 else jsIndexOf x ys + 1

/-- JS `Array.prototype.splice(start, 1)`: removes one element at `start`; a
negative `start` counts from the end of the array, clamped at 0. -/
def jsSplice1 {α : Type} (l : List α) (start : Int) : List α :=
  let s : Nat := if start < 0 then ((l.length : Int) + start).toNat else min start.toNat l.length
  l.take s ++ l.drop (s + 1)

/-- Modelled from the spec: `utils.getRandom` (src/utils.js is absent from the
source tree) "picks one entry uniformly at random" from a sequence; the random
draw is made explicit as an index `k` reduced modulo the length. -/
def getRandomChoice {α : Type} (l : List α) (k : Nat) : Option α :=
  l[k % l.length]?

/-- Network parameters object; optional JS fields are `Option`s, a missing
field is `none`.  `hasGetNewPeer` records whether a custom `getNewPeer`
discovery function is supplied. -/
structure NetworkParams where
  id : Option String := none
  magic : Option Nat := none
  defaultPort : Option Nat := none
  protocolVersion : Option Nat := none
  dnsSeeds : List String := []
  staticPeers : List String := []
  webSeeds : List String := []
  hasGetNewPeer : Bool := false
deriving DecidableEq

/-- Constructor options object (`opts`). -/
structure PGOpts where
  numPeers : Option Nat := none
  hardLimit : Option Bool := none
  connectWeb : Option Bool := none
  connectTimeout : Option Nat := none
  handshakeTimeout : Option Nat := none
deriving DecidableEq

/-- Events emitted by the pool manager. -/
inductive PGEvent where
  | peer (pid : Nat)
  | disconnect (pid : Nat)
  | connectError (msg : String) (pid : Option Nat)
  | peerError (pid : Nat)
deriving DecidableEq

/-- Per-attempt record of the timeout race inside `_connectPeer`: whether a
timer was created (`connectTimeout` truthy), whether that timer is still
pending, and whether it has fired (the `timedOut` latch). -/
structure Attempt where
  hasTimer : Bool
  timerActive : Bool
  timedOut : Bool
deriving DecidableEq

/-- A peer-discovery method pushed onto `getPeerArray` in `_connectPeer`. -/
inductive Method where
  | dnsSeed
  | staticPeer
  | exchangeGetNewPeer
  | paramsGetNewPeer
deriving DecidableEq

/-- The `PeerGroup` state.  `browser` models `process.browser`,
`exchangePeers` the size of `this._exchange.peers`, `events` the emitted
events in order, `connectCalls` the number of `_connectPeer` invocations,
`attemptRecs` the issued discovery attempts, `pendingPeers` peers in the
pre-admission handshake stage, `onceReadyCallbacks` the pending `_onceReady`
registrations made by `addPeer`, `disconnectHandlers`/`errorHandlers` the
handlers `addPeer` registered, and `disconnectCalls` the peers whose
`disconnect()` method the group has invoked. -/
structure PeerGroup where
  params : NetworkParams
  browser : Bool := false
  numPeers : Nat := 8
  peers : List Nat := []
  hardLimit : Bool := false
  connectWeb : Bool := false
  connectTimeout : Nat := 5000
  handshakeTimeout : Nat := 5000
  connecting : Bool := false
  exchangePeers : Nat := 0
  events : List PGEvent := []
  connectCalls : Nat := 0
  attemptRecs : List Attempt := []
  pendingPeers : List Nat := []
  nextPeerId : Nat := 100
  onceReadyCallbacks : List Nat := []
  disconnectHandlers : List Nat := []
  errorHandlers : List Nat := []
  disconnectCalls : List Nat := []
deriving DecidableEq

/-- Argument to `addPeer`: the peer's identity and its `ready` flag at the
time of the call. -/
structure PeerArg where
  pid : Nat
  ready : Bool

/-- `assertParams`: rejects the params object unless it is truthy, `id` is
truthy, `magic` is non-null, and `defaultPort` is truthy. -/
def assertParams : Option NetworkParams → Except String Unit
  | none => .error "Invalid network parameters"
  | some p =>
    if !truthyStrOpt p.id || p.magic.isNone || !truthyNatOpt p.defaultPort then
      .error "Invalid network parameters"
    else .ok ()

/-- The `PeerGroup` constructor: `assertParams` runs before any state is set
up; on success the fields are populated from `opts` with the JS `||` default
idiom.  `browser` models `process.browser`. -/
def mkPeerGroup (params? : Option NetworkParams) (opts : PGOpts) (browser : Bool) :
    Except String PeerGroup :=
  match assertParams params?, params? with
  | .error e, _ => .error e
  | .ok _, none => .error "Invalid network parameters"
  | .ok _, some params =>
    .ok { params := params
          browser := browser
          numPeers := jsOrNat opts.numPeers 8
          peers := []
          hardLimit := opts.hardLimit.getD false
          connectWeb := opts.connectWeb.getD browser
          connectTimeout := jsOrNat opts.connectTimeout 5000
          handshakeTimeout := jsOrNat opts.handshakeTimeout 5000
          connecting := false }

/-- The eligible discovery-method list built at the top of `_connectPeer`. -/
def getPeerArray (pg : PeerGroup) : List Method :=
  (if !pg.browser && !pg.params.dnsSeeds.isEmpty then [Method.dnsSeed] else []) ++
  (if !pg.browser && !pg.params.staticPeers.isEmpty then [Method.staticPeer] else []) ++
  (if pg.connectWeb && pg.exchangePeers != 0 then [Method.exchangeGetNewPeer] else []) ++
  (if pg.params.hasGetNewPeer then [Method.paramsGetNewPeer] else [])

/-- The synchronous tail of `_connectPeer` once a method is selected: if
`connectTimeout` is falsy the method is invoked with no timer, otherwise a
timeout timer is started; either way the synchronous call returns and the
method's completion arrives later as a separate environment step. -/
def issueAttempt (pg : PeerGroup) : PeerGroup :=
  if pg.connectTimeout = 0 then
    { pg with attemptRecs := pg.attemptRecs ++ [⟨false, false, false⟩] }
  else
    { pg with attemptRecs := pg.attemptRecs ++ [⟨true, true, false⟩] }

/-- `_connectPeer` with explicit fuel bounding its synchronous retry
recursion: `none` means the recursion exceeded every bound (divergence).
When the eligible method list is empty the source does
`return this._onConnection(new Error(...))`; that error body is inlined here:
emit `connectError` and, while `connecting`, immediately recurse. -/
def connectPeer : Nat → PeerGroup → Option PeerGroup
  | 0, _ => none
  | fuel+1, pg =>
    if getPeerArray pg = [] then
      let pg2 : PeerGroup :=
        { pg with connectCalls := pg.connectCalls + 1,
                  events :=
                    pg.events ++ [PGEvent.connectError "No methods available to get new peers" none] }
      if pg.connecting then connectPeer fuel pg2 else some pg2
    else
      some (issueAttempt { pg with connectCalls := pg.connectCalls + 1 })

/-- `_onConnection` success path: wrap the socket in a fresh `Peer` and
register the pre-admission `error`/`disconnect`/`ready` handlers. -/
def spawnPendingPeer (pg : PeerGroup) : PeerGroup :=
  { pg with pendingPeers := pg.pendingPeers ++ [pg.nextPeerId],
            nextPeerId := pg.nextPeerId + 1 }

/-- `_onConnection`: on error emit `connectError` and retry while
`connecting`; on success hand the socket to the admission pipeline. -/
def onConnection (fuel : Nat) (pg : PeerGroup) (res : Except String Unit) :
    Option PeerGroup :=
  match res with
  | .error msg =>
    let pg1 : PeerGroup := { pg with events := pg.events ++ [PGEvent.connectError msg none] }
    if pg.connecting then connectPeer fuel pg1 else some pg1
  | .ok _ => some (spawnPendingPeer pg)

/-- The `setTimeout` callback of `_connectPeer`: fires only while the timer is
still pending, latches `timedOut`, emits the timeout `connectError`, and while
`connecting` starts another attempt. -/
def fireTimer (fuel : Nat) (pg : PeerGroup) (i : Nat) : Option PeerGroup :=
  match pg.attemptRecs[i]? with
  | none => some pg
  | some a =>
    if a.timerActive then
      let pgA : PeerGroup :=
        { pg with attemptRecs := pg.attemptRecs.set i { a with timerActive := false, timedOut := true } }
      let pgB : PeerGroup :=
        { pgA with events := pgA.events ++ [PGEvent.connectError "Connection timed out" none] }
      if pg.connecting then connectPeer fuel pgB else some pgB
    else some pg

/-- Completion of the selected discovery method for attempt `i`.  With a timer
the callback is the closure at the bottom of `_connectPeer`: a completion after
the timeout latch is discarded (`if (timedOut) return`), otherwise the timer is
cleared and `_onConnection` runs.  Without a timer `_onConnection` is the
callback directly. -/
def completeMethod (fuel : Nat) (pg : PeerGroup) (i : Nat) (res : Except String Unit) :
    Option PeerGroup :=
  match pg.attemptRecs[i]? with
  | none => some pg
  | some a =>
    if a.hasTimer then
      if a.timedOut then some pg
      else
        onConnection fuel
          { pg with attemptRecs := pg.attemptRecs.set i { a with timerActive := false } } res
    else onConnection fuel pg res

/-- The unconditional tail of `addPeer`: push the peer, evict the front peer
when the hard limit overflows (`shift()` then `disconnect()`), register the
once-`disconnect` and persistent `error` handlers, and emit `peer`. -/
def admitPeer (pg : PeerGroup) (pid : Nat) : PeerGroup :=
  let pg1 : PeerGroup := { pg with peers := pg.peers ++ [pid] }
  let pg2 : PeerGroup :=
    if pg1.hardLimit ∧ pg1.numPeers < pg1.peers.length then
      { pg1 with peers := pg1.peers.tail,
                 disconnectCalls := pg1.disconnectCalls ++ pg1.peers.take 1 }
    else pg1
  let pg3 : PeerGroup :=
    { pg2 with disconnectHandlers := pg2.disconnectHandlers ++ [pid],
               errorHandlers := pg2.errorHandlers ++ [pid] }
  { pg3 with events := pg3.events ++ [PGEvent.peer pid] }

/-- `addPeer`.  NOTE: the source registers the `_onceReady` callback for a
not-yet-ready peer but does not return, so the admission tail below runs even
for an unready peer, and runs again when the callback re-invokes `addPeer`. -/
def addPeer (pg : PeerGroup) (p : PeerArg) : PeerGroup :=
  admitPeer
    (if p.ready then pg
     else { pg with onceReadyCallbacks := pg.onceReadyCallbacks ++ [p.pid] })
    p.pid

/-- Environment step: a peer passed to `addPeer` while unready becomes ready,
which fires the registered `_onceReady` callback and re-invokes `addPeer`. -/
def fireOnceReady (pg : PeerGroup) (pid : Nat) : PeerGroup :=
  if pg.onceReadyCallbacks.contains pid then
    addPeer { pg with onceReadyCallbacks := pg.onceReadyCallbacks.erase pid } ⟨pid, true⟩
  else pg

/-- One iteration bound of the `for` loop in `_fillPeers`; the fuel only
bounds the recursion inside each `_connectPeer` call. -/
def fillLoop (fuel : Nat) : Nat → PeerGroup → Option PeerGroup
  | 0, pg => some pg
  | n+1, pg => (connectPeer fuel pg).bind (fillLoop fuel n)

/-- `_fillPeers`: issue `numPeers - peers.length` connection attempts. -/
def fillPeers (fuel : Nat) (pg : PeerGroup) : Option PeerGroup :=
  fillLoop fuel (pg.numPeers - pg.peers.length) pg

/-- The once-`disconnect` handler registered by `addPeer`: look up the peer's
index (`-1` when absent), splice one element out at that index, refill while
`connecting`, then emit the `disconnect` event. -/
def onPeerDisconnect (fuel : Nat) (pg : PeerGroup) (pid : Nat) : Option PeerGroup :=
  if pg.disconnectHandlers.contains pid then
    let pgA : PeerGroup := { pg with disconnectHandlers := pg.disconnectHandlers.erase pid }
    let pgB : PeerGroup := { pgA with peers := jsSplice1 pgA.peers (jsIndexOf pid pgA.peers) }
    let step := if pg.connecting then fillPeers fuel pgB else some pgB
    step.map (fun pgC => { pgC with events := pgC.events ++ [PGEvent.disconnect pid] })
  else some pg

/-- The persistent `error` handler registered by `addPeer`: emit `peerError`
and force the peer to disconnect. -/
def onPeerError (pg : PeerGroup) (pid : Nat) : PeerGroup :=
  if pg.errorHandlers.contains pid then
    { pg with events := pg.events ++ [PGEvent.peerError pid],
              disconnectCalls := pg.disconnectCalls ++ [pid] }
  else pg

/-- The pre-admission `error`/`disconnect` handler installed by
`_onConnection`: detach the listeners, emit `connectError` with the peer, and
retry while `connecting`. -/
def pendingPeerError (fuel : Nat) (pg : PeerGroup) (pid : Nat) (msg : String) :
    Option PeerGroup :=
  if pg.pendingPeers.contains pid then
    let pg1 : PeerGroup :=
      { pg with pendingPeers := pg.pendingPeers.erase pid,
                events := pg.events ++ [PGEvent.connectError msg (some pid)] }
    if pg.connecting then connectPeer fuel pg1 else some pg1
  else some pg

/-- The pre-admission `ready` handler installed by `_onConnection`: detach the
listeners and admit the (now ready) peer. -/
def pendingPeerReady (pg : PeerGroup) (pid : Nat) : PeerGroup :=
  if pg.pendingPeers.contains pid then
    addPeer { pg with pendingPeers := pg.pendingPeers.erase pid } ⟨pid, true⟩
  else pg

/-- `disconnect()`: clear the connecting flag and call `disconnect()` on every
peer currently in the set. -/
def disconnect (pg : PeerGroup) : PeerGroup :=
  { pg with connecting := false, disconnectCalls := pg.disconnectCalls ++ pg.peers }

/-- Result of the spec's address-parsing collaborator. -/
structure ParsedAddress where
  hostname : String
  port : Option Nat
deriving DecidableEq

/-- A raw TCP dial as performed by `_connectTCP`, with the fixed 10-second
socket-level timeout it installs. -/
structure TcpDial where
  host : String
  port : Nat
  socketTimeoutMs : Nat := 10000
deriving DecidableEq

/-- Splits a character list into the groups separated by colons. -/
def splitCols : List Char → List (List Char)
  | [] => [[]]
  | c :: rest =>
    let r := splitCols rest
    if c = ':' then [] :: r
    else
      match r with
      | [] => [[c]]
      | g :: gs => (c :: g) :: gs

/-- Reads a non-empty run of decimal digits as a number. -/
def decDigitsAux : List Char → Nat → Option Nat
  | [], acc => some acc
  | c :: rest, acc =>
    if '0' ≤ c ∧ c ≤ '9' then decDigitsAux rest (acc * 10 + (c.toNat - '0'.toNat))
    else none

/-- Reads a decimal number from a character list, `none` when empty or invalid. -/
def decDigits : List Char → Option Nat
  | [] => none
  | c :: rest => decDigitsAux (c :: rest) 0

/-- Modelled from the spec: `utils.parseAddress` (src/utils.js is absent from
the source tree) "parses a `host:port`-style string into `{hostname, port}`". -/
def parseAddress (s : String) : ParsedAddress :=
  match splitCols s.toList with
  | [h, p] => ⟨String.mk h, decDigits p⟩
  | [h] => ⟨String.mk h, none⟩
  | _ => ⟨s, none⟩

/-- `_connectTCP(host, port, cb)`.  NOTE: the source dials
`net.connect(this._params.defaultPort, host)`, so the `port` argument is
ignored and the network default port is always used. -/
def connectTCP (pg : PeerGroup) (host : String) (_port : Option Nat) : TcpDial :=
  { host := host, port := pg.params.defaultPort.getD 0 }

/-- `_connectStaticPeer`: pick a static entry at random, parse it, and dial
via `_connectTCP`. -/
def connectStaticPeer (pg : PeerGroup) (k : Nat) : Option TcpDial :=
  match getRandomChoice pg.params.staticPeers k with
  | none => none
  | some address =>
    let peer := parseAddress address
    some (connectTCP pg peer.hostname peer.port)

/-- The error message of a construction outcome, `none` on success. -/
def errorOf : Except String PeerGroup → Option String
  | .error e => some e
  | .ok _ => none

/-- A valid mainnet-like params object used by concrete witnesses. -/
def demoParams : NetworkParams :=
  { id := some "bitcoin", magic := some 3652501241, defaultPort := some 8333 }

/-- Valid params whose only discovery source is a single static peer entry. -/
def staticParams : NetworkParams :=
  { id := some "bitcoin", magic := some 3652501241, defaultPort := some 8333,
    staticPeers := ["1.2.3.4:1234"] }

/-- Pool used for the not-yet-ready `addPeer` scenario. -/
def c1pg : PeerGroup := { params := demoParams }

/-- Pool at one peer below an 8-peer target, with one live peer. -/
def c2pg : PeerGroup :=
  { params := staticParams, connecting := true, peers := [1], disconnectHandlers := [1] }

/-- Connecting pool exactly at its target size of 1 with one live peer. -/
def c2full : PeerGroup :=
  { params := staticParams, connecting := true, numPeers := 1, peers := [1],
    disconnectHandlers := [1] }

/-- Hard-limited pool at its target of 2 with peers 1 and 2 admitted. -/
def c3pg : PeerGroup :=
  { params := demoParams, hardLimit := true, numPeers := 2, peers := [1, 2],
    disconnectHandlers := [1, 2], errorHandlers := [1, 2] }

/-- Pool whose static list holds one `host:port` entry. -/
def c4pg : PeerGroup := { params := staticParams }

/-- Connecting pool with no eligible discovery method. -/
def c5pg : PeerGroup := { params := demoParams, connecting := true }

/-- Non-connecting pool with no eligible discovery method. -/
def c5pgStopped : PeerGroup := { params := demoParams }

/-- Options requesting a zero connect timeout. -/
def c6opts : PGOpts := { connectTimeout := some 0 }

/-- A pool whose `connectTimeout` field itself is falsy (assigned after
construction), with one static peer available. -/
def c6pgZero : PeerGroup := { params := staticParams, connectTimeout := 0, connecting := true }

/-- The pool state `mkPeerGroup` produces from `staticParams` with
`connectTimeout: 0` in the options. -/
def c6pgBuilt : PeerGroup := { params := staticParams }

/-- The pool state produced by constructing with `connectTimeout: 0`, set
connecting, with one static peer available. -/
def c6pg : PeerGroup := { params := staticParams, connecting := true }

/-- Connecting pool with one freshly issued timed attempt. -/
def c7pg : PeerGroup :=
  { params := staticParams, connecting := true, attemptRecs := [⟨true, true, false⟩] }

/-- Empty hard-limited pool with a target of 2. -/
def c8pg : PeerGroup := { params := demoParams, hardLimit := true, numPeers := 2 }

/-- Connecting pool with two live peers, about to be shut down. -/
def c9q : PeerGroup := { params := demoParams, connecting := true, peers := [4, 5] }

/-- Pool after `disconnect()`: not connecting, with a live peer, a pending
handshake and a pending timed attempt still in flight. -/
def c9pg : PeerGroup :=
  { params := staticParams, connecting := false, peers := [4],
    disconnectHandlers := [4], pendingPeers := [9], attemptRecs := [⟨true, true, false⟩] }

/-- Params whose `defaultPort` is present and non-null but falsy (`0`). -/
def c10params : NetworkParams := { id := some "main", magic := some 1, defaultPort := some 0 }

/-- The eligible-method list only reads the construction-time fields. -/
theorem getPeerArray_congr {pg pg' : PeerGroup}
    (h1 : pg'.browser = pg.browser) (h2 : pg'.params = pg.params)
    (h3 : pg'.connectWeb = pg.connectWeb) (h4 : pg'.exchangePeers = pg.exchangePeers) :
    getPeerArray pg' = getPeerArray pg := by
  simp [getPeerArray, h1, h2, h3, h4]

/-- With at least one eligible method, one `_connectPeer` call issues exactly
one attempt and returns. -/
theorem connectPeer_issue (fuel : Nat) (pg : PeerGroup) (hne : getPeerArray pg ≠ []) :
    connectPeer (fuel+1) pg =
      some (issueAttempt { pg with connectCalls := pg.connectCalls + 1 }) := by
  simp only [connectPeer]
  rw [if_neg hne]

/-- With no eligible method and the pool still connecting, `_connectPeer`
recurses forever: it exhausts every fuel bound. -/
theorem connectPeer_noMethods_diverges :
    ∀ (fuel : Nat) (pg : PeerGroup), getPeerArray pg = [] → pg.connecting = true →
      connectPeer fuel pg = none := by
  intro fuel
  induction fuel with
  | zero => intro pg _ _; rfl
  | succ n ih =>
    intro pg hm hc
    simp only [connectPeer]
    rw [if_pos hm, if_pos hc]
    exact ih _ ((getPeerArray_congr rfl rfl rfl rfl).trans hm) hc

/-- With no eligible method and the pool not connecting, `_connectPeer`
terminates after emitting the single `connectError`. -/
theorem connectPeer_noMethods_stopped (fuel : Nat) (pg : PeerGroup)
    (hm : getPeerArray pg = []) (hc : pg.connecting = false) :
    connectPeer (fuel+1) pg =
      some { pg with connectCalls := pg.connectCalls + 1,
                     events := pg.events ++
                       [PGEvent.connectError "No methods available to get new peers" none] } := by
  simp only [connectPeer]
  rw [if_pos hm, if_neg (by simp [hc])]

/-- `_connectPeer` only appends to the attempt list. -/
theorem connectPeer_attemptRecs_append :
    ∀ (fuel : Nat) (pg pg' : PeerGroup), connectPeer fuel pg = some pg' →
      ∃ t, pg'.attemptRecs = pg.attemptRecs ++ t := by
  intro fuel
  induction fuel with
  | zero => intro pg pg' h; cases h
  | succ n ih =>
    intro pg pg' h
    simp only [connectPeer] at h
    by_cases hm : getPeerArray pg = []
    · rw [if_pos hm] at h
      by_cases hc : pg.connecting = true
      · rw [if_pos hc] at h
        obtain ⟨t, ht⟩ := ih _ _ h
        exact ⟨t, ht⟩
      · rw [if_neg hc] at h
        cases h
        exact ⟨[], by simp⟩
    · rw [if_neg hm] at h
      cases h
      unfold issueAttempt
      by_cases ht : pg.connectTimeout = 0
      · rw [if_pos ht]
        exact ⟨[⟨false, false, false⟩], rfl⟩
      · rw [if_neg ht]
        exact ⟨[⟨true, true, false⟩], rfl⟩

/-- `_onConnection` only appends to the attempt list. -/
theorem onConnection_attemptRecs_append (fuel : Nat) (pg pg' : PeerGroup)
    (res : Except String Unit) (h : onConnection fuel pg res = some pg') :
    ∃ t, pg'.attemptRecs = pg.attemptRecs ++ t := by
  cases res with
  | ok u =>
    simp only [onConnection] at h
    cases h
    exact ⟨[], by simp [spawnPendingPeer]⟩
  | error msg =>
    simp only [onConnection] at h
    by_cases hc : pg.connecting = true
    · rw [if_pos hc] at h
      obtain ⟨t, ht⟩ := connectPeer_attemptRecs_append fuel _ _ h
      exact ⟨t, ht⟩
    · rw [if_neg hc] at h
      cases h
      exact ⟨[], by simp⟩

/-- `jsIndexOf` returns `-1` or a valid index. -/
theorem jsIndexOf_cases (x : Nat) :
    ∀ l : List Nat, jsIndexOf x l = -1 ∨
      ∃ n : Nat, jsIndexOf x l = (n : Int) ∧ n < l.length := by
  intro l
  induction l with
  | nil => left; rfl
  | cons y ys ih =>
    simp only [jsIndexOf]
    by_cases hy : y = x
    · right
      exact ⟨0, by rw [if_pos hy]; norm_num, by simp⟩
    · rw [if_neg hy]
      rcases ih with hm | ⟨n, hn, hlt⟩
      · left
        rw [hm, if_pos (by omega : (-1 : Int) < 0)]
      · right
        rw [hn, if_neg (by omega : ¬ ((n : Int) < 0))]
        exact ⟨n + 1, by push_cast; ring, by simpa using Nat.succ_lt_succ hlt⟩

/-- Splicing one element out at `-1` removes the last element. -/
theorem jsSplice1_length_neg_one {α : Type} (l : List α) (h : l ≠ []) :
    (jsSplice1 l (-1)).length = l.length - 1 := by
  have hl : 1 ≤ l.length := by
    cases l with
    | nil => exact absurd rfl h
    | cons a t => simp
  simp only [jsSplice1]
  rw [if_pos (by omega : (-1 : Int) < 0)]
  have hs : ((l.length : Int) + (-1)).toNat = l.length - 1 := by omega
  rw [hs]
  simp only [List.length_append, List.length_take, List.length_drop]
  omega

/-- Splicing one element out at a valid index shortens the list by one. -/
theorem jsSplice1_length_of_lt {α : Type} (l : List α) (n : Nat) (h : n < l.length) :
    (jsSplice1 l (n : Int)).length = l.length - 1 := by
  simp only [jsSplice1]
  rw [if_neg (by omega : ¬ ((n : Int) < 0))]
  have hs : ((n : Int)).toNat = n := by omega
  rw [hs]
  simp only [List.length_append, List.length_take, List.length_drop]
  omega

/-- The disconnect handler's `indexOf`/`splice` pair always removes exactly
one element from a non-empty peer list, found or not. -/
theorem jsSplice1_indexOf_length (l : List Nat) (x : Nat) (h : l ≠ []) :
    (jsSplice1 l (jsIndexOf x l)).length = l.length - 1 := by
  rcases jsIndexOf_cases x l with hm | ⟨n, hn, hlt⟩
  · rw [hm]
    exact jsSplice1_length_neg_one l h
  · rw [hn]
    exact jsSplice1_length_of_lt l n hlt

/-- `issueAttempt` appends exactly one attempt record. -/
theorem issueAttempt_attemptRecs (pg : PeerGroup) :
    ∃ r, (issueAttempt pg).attemptRecs = pg.attemptRecs ++ [r] := by
  unfold issueAttempt
  by_cases h : pg.connectTimeout = 0
  · rw [if_pos h]
    exact ⟨_, rfl⟩
  · rw [if_neg h]
    exact ⟨_, rfl⟩

/-- `issueAttempt` leaves the emitted events unchanged. -/
theorem issueAttempt_events (pg : PeerGroup) : (issueAttempt pg).events = pg.events := by
  unfold issueAttempt
  by_cases h : pg.connectTimeout = 0
  · rw [if_pos h]
  · rw [if_neg h]

/-- `issueAttempt` leaves the peer set unchanged. -/
theorem issueAttempt_peers (pg : PeerGroup) : (issueAttempt pg).peers = pg.peers := by
  unfold issueAttempt
  by_cases h : pg.connectTimeout = 0
  · rw [if_pos h]
  · rw [if_neg h]

/-- `issueAttempt` leaves the call counter unchanged. -/
theorem issueAttempt_connectCalls (pg : PeerGroup) :
    (issueAttempt pg).connectCalls = pg.connectCalls := by
  unfold issueAttempt
  by_cases h : pg.connectTimeout = 0
  · rw [if_pos h]
  · rw [if_neg h]

/-- `issueAttempt` leaves the connecting flag unchanged. -/
theorem issueAttempt_connecting (pg : PeerGroup) :
    (issueAttempt pg).connecting = pg.connecting := by
  unfold issueAttempt
  by_cases h : pg.connectTimeout = 0
  · rw [if_pos h]
  · rw [if_neg h]

/-- `issueAttempt` does not change method eligibility. -/
theorem getPeerArray_issueAttempt (pg : PeerGroup) :
    getPeerArray (issueAttempt pg) = getPeerArray pg := by
  unfold issueAttempt
  by_cases h : pg.connectTimeout = 0
  · rw [if_pos h]
    exact getPeerArray_congr rfl rfl rfl rfl
  · rw [if_neg h]
    exact getPeerArray_congr rfl rfl rfl rfl

/-- An index holding a value is inside the list. -/
theorem getq_some_lt {α : Type} {l : List α} {i : Nat} {v : α}
    (h : l[i]? = some v) : i < l.length := by
  obtain ⟨h', -⟩ := List.getElem?_eq_some_iff.mp h
  exact h'

/-- Lookups survive appending on the right. -/
theorem getq_append_keep {α : Type} {l l' t : List α} {i : Nat} {v : α}
    (h : l' = l ++ t) (hv : l[i]? = some v) : l'[i]? = some v := by
  subst h
  rw [List.getElem?_append_left (getq_some_lt hv)]
  exact hv

/-- A fired or cleared timer never acts again. -/
theorem fireTimer_inactive (fuel : Nat) (pg : PeerGroup) (i : Nat) (a : Attempt)
    (hget : pg.attemptRecs[i]? = some a) (hA : a.timerActive = false) :
    fireTimer fuel pg i = some pg := by
  simp only [fireTimer, hget, hA]
  simp

/-- A completion arriving after the timeout latch is discarded entirely. -/
theorem completeMethod_timedOut (fuel : Nat) (pg : PeerGroup) (i : Nat)
    (res : Except String Unit) (a : Attempt)
    (hget : pg.attemptRecs[i]? = some a) (hT : a.hasTimer = true) (hO : a.timedOut = true) :
    completeMethod fuel pg i res = some pg := by
  simp only [completeMethod, hget, hT, hO]
  simp

/-- With an eligible method available, `_onConnection` always returns. -/
theorem onConnection_some (fuel : Nat) (pg : PeerGroup) (res : Except String Unit)
    (hne : getPeerArray pg ≠ []) :
    ∃ pg', onConnection (fuel+1) pg res = some pg' := by
  cases res with
  | ok u => exact ⟨_, rfl⟩
  | error msg =>
    by_cases hc : pg.connecting = true
    · have hne1 :
          getPeerArray ({ pg with events := pg.events ++ [PGEvent.connectError msg none] } :
            PeerGroup) ≠ [] := by
        rw [getPeerArray_congr rfl rfl rfl rfl]
        exact hne
      have hrun : onConnection (fuel+1) pg (Except.error msg) =
          connectPeer (fuel+1)
            { pg with events := pg.events ++ [PGEvent.connectError msg none] } := by
        simp only [onConnection]
        rw [if_pos hc]
      rw [hrun, connectPeer_issue fuel _ hne1]
      exact ⟨_, rfl⟩
    · have hrun : onConnection (fuel+1) pg (Except.error msg) =
          some { pg with events := pg.events ++ [PGEvent.connectError msg none] } := by
        simp only [onConnection]
        rw [if_neg hc]
      exact ⟨_, hrun⟩

/-- The loop of `_fillPeers` issues exactly its iteration count of attempts
and touches nothing else, as long as a discovery method is eligible. -/
theorem fillLoop_counts (fuel : Nat) :
    ∀ (n : Nat) (pg : PeerGroup), getPeerArray pg ≠ [] →
      ∃ pg', fillLoop (fuel+1) n pg = some pg' ∧
        pg'.connectCalls = pg.connectCalls + n ∧
        pg'.peers = pg.peers ∧
        pg'.events = pg.events ∧
        pg'.connecting = pg.connecting ∧
        getPeerArray pg' = getPeerArray pg := by
  intro n
  induction n with
  | zero => intro pg hne; exact ⟨pg, rfl, rfl, rfl, rfl, rfl, rfl⟩
  | succ m ih =>
    intro pg hne
    have hstep := connectPeer_issue fuel pg hne
    have hq : getPeerArray (issueAttempt { pg with connectCalls := pg.connectCalls + 1 }) =
        getPeerArray pg := by
      rw [getPeerArray_issueAttempt]
      exact getPeerArray_congr rfl rfl rfl rfl
    obtain ⟨pg', h1, h2, h3, h4, h5, h6⟩ := ih (issueAttempt { pg with connectCalls := pg.connectCalls + 1 })
      (by rw [hq]; exact hne)
    refine ⟨pg', ?_, ?_, ?_, ?_, ?_, ?_⟩
    · simp only [fillLoop, hstep, Option.some_bind]
      exact h1
    · rw [h2, issueAttempt_connectCalls]
      show pg.connectCalls + 1 + m = pg.connectCalls + (m + 1)
      omega
    · rw [h3, issueAttempt_peers]
    · rw [h4, issueAttempt_events]
    · rw [h5, issueAttempt_connecting]
    · rw [h6, hq]

/-- When the validation condition is false, each field check passes. -/
theorem assertCond_false_split (p : NetworkParams)
    (hC : ¬ (!truthyStrOpt p.id || p.magic.isNone || !truthyNatOpt p.defaultPort) = true) :
    truthyStrOpt p.id = true ∧ p.magic.isNone = false ∧ truthyNatOpt p.defaultPort = true := by
  refine ⟨?_, ?_, ?_⟩
  · cases h : truthyStrOpt p.id
    · exact absurd (by simp [h]) hC
    · rfl
  · cases h : p.magic.isNone
    · rfl
    · exact absurd (by simp [h]) hC
  · cases h : truthyNatOpt p.defaultPort
    · exact absurd (by simp [h]) hC
    · rfl

/-- A successful construction forces truthy params and fully determines the
fresh pool state. -/
theorem mkPeerGroup_ok (params? : Option NetworkParams) (opts : PGOpts) (browser : Bool)
    (pg : PeerGroup) (h : mkPeerGroup params? opts browser = Except.ok pg) :
    ∃ p, params? = some p ∧
      truthyStrOpt p.id = true ∧ p.magic.isNone = false ∧ truthyNatOpt p.defaultPort = true ∧
      pg = { params := p, browser := browser, numPeers := jsOrNat opts.numPeers 8,
             hardLimit := opts.hardLimit.getD false, connectWeb := opts.connectWeb.getD browser,
             connectTimeout := jsOrNat opts.connectTimeout 5000,
             handshakeTimeout := jsOrNat opts.handshakeTimeout 5000 } := by
  cases params? with
  | none => exact absurd h (by simp [mkPeerGroup, assertParams])
  | some p =>
    by_cases hC : (!truthyStrOpt p.id || p.magic.isNone || !truthyNatOpt p.defaultPort) = true
    · refine absurd h ?_
      simp only [mkPeerGroup, assertParams]
      rw [if_pos hC]
      simp
    · obtain ⟨h1, h2, h3⟩ := assertCond_false_split p hC
      have hred : mkPeerGroup (some p) opts browser =
          Except.ok { params := p, browser := browser, numPeers := jsOrNat opts.numPeers 8,
                      hardLimit := opts.hardLimit.getD false,
                      connectWeb := opts.connectWeb.getD browser,
                      connectTimeout := jsOrNat opts.connectTimeout 5000,
                      handshakeTimeout := jsOrNat opts.handshakeTimeout 5000 } := by
        simp only [mkPeerGroup, assertParams]
        rw [if_neg hC]
      rw [hred] at h
      injection h with h4
      exact ⟨p, rfl, h1, h2, h3, h4.symm⟩

/-- When the params object is missing or fails a truthiness check,
construction throws the configuration error. -/
theorem mkPeerGroup_error (params? : Option NetworkParams) (opts : PGOpts) (browser : Bool)
    (hbad : ¬ ∃ p, params? = some p ∧ truthyStrOpt p.id = true ∧ p.magic.isNone = false ∧
      truthyNatOpt p.defaultPort = true) :
    mkPeerGroup params? opts browser = Except.error "Invalid network parameters" := by
  cases params? with
  | none => rfl
  | some p =>
    by_cases hC : (!truthyStrOpt p.id || p.magic.isNone || !truthyNatOpt p.defaultPort) = true
    · simp only [mkPeerGroup, assertParams]
      rw [if_pos hC]
    · obtain ⟨h1, h2, h3⟩ := assertCond_false_split p hC
      exact absurd ⟨p, rfl, h1, h2, h3⟩ hbad

/-- With the pool stopped, `_onConnection` issues no new attempt and cannot
restart the pool. -/
theorem onConnection_stopped (fuel : Nat) (pg pg' : PeerGroup) (res : Except String Unit)
    (h : pg.connecting = false) (hr : onConnection fuel pg res = some pg') :
    pg'.connectCalls = pg.connectCalls ∧ pg'.connecting = false := by
  cases res with
  | ok u =>
    simp only [onConnection] at hr
    cases hr
    exact ⟨rfl, h⟩
  | error msg =>
    simp only [onConnection] at hr
    rw [if_neg (by simp [h])] at hr
    cases hr
    exact ⟨rfl, h⟩

/-- With the pool stopped, a firing connect timer issues no new attempt. -/
theorem fireTimer_stopped (fuel : Nat) (pg pg' : PeerGroup) (i : Nat)
    (h : pg.connecting = false) (hr : fireTimer fuel pg i = some pg') :
    pg'.connectCalls = pg.connectCalls ∧ pg'.connecting = false := by
  cases hga : pg.attemptRecs[i]? with
  | none =>
    simp only [fireTimer, hga] at hr
    cases hr
    exact ⟨rfl, h⟩
  | some a =>
    simp only [fireTimer, hga] at hr
    by_cases hact : a.timerActive = true
    · rw [if_pos hact, if_neg (by simp [h])] at hr
      cases hr
      exact ⟨rfl, h⟩
    · rw [if_neg hact] at hr
      cases hr
      exact ⟨rfl, h⟩

/-- With the pool stopped, a late or on-time method completion issues no new
attempt. -/
theorem completeMethod_stopped (fuel : Nat) (pg pg' : PeerGroup) (i : Nat)
    (res : Except String Unit) (h : pg.connecting = false)
    (hr : completeMethod fuel pg i res = some pg') :
    pg'.connectCalls = pg.connectCalls ∧ pg'.connecting = false := by
  cases hga : pg.attemptRecs[i]? with
  | none =>
    simp only [completeMethod, hga] at hr
    cases hr
    exact ⟨rfl, h⟩
  | some a =>
    simp only [completeMethod, hga] at hr
    by_cases hT : a.hasTimer = true
    · rw [if_pos hT] at hr
      by_cases hO : a.timedOut = true
      · rw [if_pos hO] at hr
        cases hr
        exact ⟨rfl, h⟩
      · rw [if_neg hO] at hr
        exact onConnection_stopped fuel
          { pg with attemptRecs := pg.attemptRecs.set i { a with timerActive := false } }
          pg' res h hr
    · rw [if_neg hT] at hr
      exact onConnection_stopped fuel pg pg' res h hr

/-- With the pool stopped, a pre-admission handshake failure issues no new
attempt. -/
theorem pendingPeerError_stopped (fuel : Nat) (pg pg' : PeerGroup) (pid : Nat) (msg : String)
    (h : pg.connecting = false) (hr : pendingPeerError fuel pg pid msg = some pg') :
    pg'.connectCalls = pg.connectCalls ∧ pg'.connecting = false := by
  simp only [pendingPeerError] at hr
  by_cases hreg : pg.pendingPeers.contains pid = true
  · rw [if_pos hreg, if_neg (by simp [h])] at hr
    cases hr
    exact ⟨rfl, h⟩
  · rw [if_neg hreg] at hr
    cases hr
    exact ⟨rfl, h⟩

/-- With the pool stopped, a peer-initiated disconnect removes the peer but
issues no refill attempt. -/
theorem onPeerDisconnect_stopped (fuel : Nat) (pg pg' : PeerGroup) (pid : Nat)
    (h : pg.connecting = false) (hr : onPeerDisconnect fuel pg pid = some pg') :
    pg'.connectCalls = pg.connectCalls ∧ pg'.connecting = false := by
  simp only [onPeerDisconnect] at hr
  by_cases hreg : pg.disconnectHandlers.contains pid = true
  · rw [if_pos hreg, if_neg (by simp [h])] at hr
    simp only [Option.map_some'] at hr
    cases hr
    exact ⟨rfl, h⟩
  · rw [if_neg hreg] at hr
    cases hr
    exact ⟨rfl, h⟩

/-- The hard-limit bound and FIFO choice of the admission tail. -/
theorem admitPeer_core (pg : PeerGroup) (pid : Nat)
    (hHL : pg.hardLimit = true) (hpos : 0 < pg.numPeers)
    (hinv : pg.peers.length ≤ pg.numPeers) :
    (admitPeer pg pid).peers.length ≤ pg.numPeers ∧
    (pg.peers.length < pg.numPeers →
       (admitPeer pg pid).peers = pg.peers ++ [pid] ∧
       (admitPeer pg pid).disconnectCalls = pg.disconnectCalls) ∧
    (pg.peers.length = pg.numPeers →
       (admitPeer pg pid).peers = pg.peers.tail ++ [pid] ∧
       (admitPeer pg pid).disconnectCalls = pg.disconnectCalls ++ [pg.peers.headI]) := by
  by_cases hov : pg.numPeers < pg.peers.length + 1
  · have heq : pg.peers.length = pg.numPeers := by omega
    obtain ⟨h0, t0, ht0⟩ : ∃ h0 t0, pg.peers = h0 :: t0 := by
      cases hp : pg.peers with
      | nil =>
        rw [hp] at heq
        simp at heq
        omega
      | cons a b => exact ⟨a, b, rfl⟩
    have hcond : pg.hardLimit = true ∧ pg.numPeers < (pg.peers ++ [pid]).length := by
      refine ⟨hHL, ?_⟩
      simp only [List.length_append, List.length_cons, List.length_nil]
      omega
    have hstep : admitPeer pg pid =
        { pg with peers := (pg.peers ++ [pid]).tail,
                  disconnectCalls := pg.disconnectCalls ++ (pg.peers ++ [pid]).take 1,
                  disconnectHandlers := pg.disconnectHandlers ++ [pid],
                  errorHandlers := pg.errorHandlers ++ [pid],
                  events := pg.events ++ [PGEvent.peer pid] } := by
      simp only [admitPeer]
      rw [if_pos hcond]
    rw [ht0] at heq
    simp only [List.length_cons] at heq
    refine ⟨?_, ?_, ?_⟩
    · rw [hstep]
      show ((pg.peers ++ [pid]).tail).length ≤ pg.numPeers
      rw [ht0]
      simp only [List.cons_append, List.tail_cons, List.length_append, List.length_cons,
        List.length_nil]
      omega
    · intro hlt
      exact absurd hlt (by omega)
    · intro _
      constructor
      · rw [hstep]
        show (pg.peers ++ [pid]).tail = pg.peers.tail ++ [pid]
        rw [ht0]
        simp
      · rw [hstep]
        show pg.disconnectCalls ++ (pg.peers ++ [pid]).take 1 =
          pg.disconnectCalls ++ [pg.peers.headI]
        rw [ht0]
        simp
  · have hcond : ¬ (pg.hardLimit = true ∧ pg.numPeers < (pg.peers ++ [pid]).length) := by
      rintro ⟨-, hlt⟩
      refine hov ?_
      have hl : (pg.peers ++ [pid]).length = pg.peers.length + 1 := by simp
      omega
    have hstep : admitPeer pg pid =
        { pg with peers := pg.peers ++ [pid],
                  disconnectHandlers := pg.disconnectHandlers ++ [pid],
                  errorHandlers := pg.errorHandlers ++ [pid],
                  events := pg.events ++ [PGEvent.peer pid] } := by
      simp only [admitPeer]
      rw [if_neg hcond]
    refine ⟨?_, ?_, ?_⟩
    · rw [hstep]
      show (pg.peers ++ [pid]).length ≤ pg.numPeers
      simp only [List.length_append, List.length_cons, List.length_nil]
      omega
    · intro _
      rw [hstep]
      exact ⟨rfl, rfl⟩
    · intro heq
      exact absurd heq (by omega)

/-- C1: `addPeer` on a not-yet-ready peer places that peer in the peer set
immediately, and when the registered once-ready callback re-invokes `addPeer`
the peer is pushed a second time, leaving a duplicate entry, duplicate
`disconnect` handlers, and a duplicate `peer` event — refuting deferred,
duplicate-free admission. -/
theorem addPeer_unready_admitted_twice :
    (addPeer c1pg ⟨7, false⟩).peers = [7] ∧
    (addPeer c1pg ⟨7, false⟩).onceReadyCallbacks = [7] ∧
    (fireOnceReady (addPeer c1pg ⟨7, false⟩) 7).peers = [7, 7] ∧
    (fireOnceReady (addPeer c1pg ⟨7, false⟩) 7).events = [PGEvent.peer 7, PGEvent.peer 7] ∧
    (fireOnceReady (addPeer c1pg ⟨7, false⟩) 7).disconnectHandlers = [7, 7] := by decide

/-- C2 counterexample: with an 8-peer target and a single live peer, that
peer's removal triggers eight `_connectPeer` invocations (the deficit), not
exactly one. -/
theorem removal_not_single_attempt :
    c2pg.connecting = true ∧ c2pg.numPeers = 8 ∧ c2pg.peers = [1] ∧
    (onPeerDisconnect 1 c2pg 1).map (fun pg => pg.connectCalls) = some 8 := by decide

/-- C2 (amended): while connecting, a peer removal triggers a deficit-based
batch refill — the disconnect handler calls `_fillPeers`, issuing
`targetPeerCount - |peers after removal|` fresh attempts; this equals exactly
one only when the pool was at its target size before the removal. -/
theorem removal_triggers_deficit_refill (fuel : Nat) (pg : PeerGroup) (pid : Nat)
    (hconn : pg.connecting = true)
    (hreg : pg.disconnectHandlers.contains pid = true)
    (hne : getPeerArray pg ≠ [])
    (hpe : pg.peers ≠ []) :
    ∃ pg', onPeerDisconnect (fuel+1) pg pid = some pg' ∧
      pg'.connectCalls = pg.connectCalls + (pg.numPeers - (pg.peers.length - 1)) ∧
      pg'.events = pg.events ++ [PGEvent.disconnect pid] ∧
      (pg.peers.length = pg.numPeers → pg'.connectCalls = pg.connectCalls + 1) := by
  have hsplice : (jsSplice1 pg.peers (jsIndexOf pid pg.peers)).length = pg.peers.length - 1 :=
    jsSplice1_indexOf_length pg.peers pid hpe
  have hneB : getPeerArray
      ({ pg with disconnectHandlers := pg.disconnectHandlers.erase pid,
                 peers := jsSplice1 pg.peers (jsIndexOf pid pg.peers) } : PeerGroup) ≠ [] := by
    rw [getPeerArray_congr rfl rfl rfl rfl]
    exact hne
  obtain ⟨pgF, h1, h2, h3, h4, h5, h6⟩ := fillLoop_counts fuel
    (pg.numPeers - (jsSplice1 pg.peers (jsIndexOf pid pg.peers)).length)
    ({ pg with disconnectHandlers := pg.disconnectHandlers.erase pid,
               peers := jsSplice1 pg.peers (jsIndexOf pid pg.peers) } : PeerGroup) hneB
  have hrun : onPeerDisconnect (fuel+1) pg pid =
      some { pgF with events := pgF.events ++ [PGEvent.disconnect pid] } := by
    simp only [onPeerDisconnect, fillPeers]
    rw [if_pos hreg, if_pos hconn, h1]
    rfl
  have hcalls : pgF.connectCalls =
      pg.connectCalls + (pg.numPeers - (pg.peers.length - 1)) := by
    rw [h2, hsplice]
  have hlen : 0 < pg.peers.length := List.length_pos.mpr hpe
  refine ⟨_, hrun, hcalls, ?_, ?_⟩
  · show pgF.events ++ [PGEvent.disconnect pid] = pg.events ++ [PGEvent.disconnect pid]
    rw [h4]
  · intro hfull
    show pgF.connectCalls = pg.connectCalls + 1
    rw [hcalls]
    omega

/-- C2 witness: the amended theorem at a full pool of target size 1 — exactly
one refill attempt results from the removal. -/
theorem removal_triggers_deficit_refill_witness :
    c2full.connecting = true ∧ c2full.disconnectHandlers.contains 1 = true ∧
    getPeerArray c2full ≠ [] ∧ c2full.peers ≠ [] ∧
    (∃ pg', onPeerDisconnect 1 c2full 1 = some pg' ∧
      pg'.connectCalls = c2full.connectCalls + (c2full.numPeers - (c2full.peers.length - 1)) ∧
      pg'.events = c2full.events ++ [PGEvent.disconnect 1] ∧
      (c2full.peers.length = c2full.numPeers → pg'.connectCalls = c2full.connectCalls + 1)) := by
  refine ⟨rfl, by decide, by decide, by decide, ?_⟩
  exact removal_triggers_deficit_refill 0 c2full 1 rfl (by decide) (by decide) (by decide)

/-- C3: when an already-evicted peer's `disconnect` event fires, `indexOf`
yields `-1` and `splice(-1, 1)` removes the most-recently-admitted peer
instead of nothing: after admitting 1, 2, 3 under `hardLimit` with target 2
(1 is evicted, set `[2, 3]`), peer 1's disconnect handler leaves `[2]`,
removing peer 3 from the set. -/
theorem evicted_disconnect_splices_last_peer :
    (addPeer c3pg ⟨3, true⟩).peers = [2, 3] ∧
    (addPeer c3pg ⟨3, true⟩).disconnectCalls = [1] ∧
    (onPeerDisconnect 1 (addPeer c3pg ⟨3, true⟩) 1).map (fun pg => pg.peers) = some [2] := by
  decide

/-- C4: the static-peer dialer parses `"1.2.3.4:1234"` into hostname
`1.2.3.4` and port `1234`, but `_connectTCP` dials
`net.connect(params.defaultPort, host)`, ignoring the parsed port: the dial
goes to port 8333, not 1234. -/
theorem static_dial_ignores_parsed_port :
    parseAddress "1.2.3.4:1234" = ⟨"1.2.3.4", some 1234⟩ ∧
    c4pg.params.defaultPort = some 8333 ∧
    connectStaticPeer c4pg 0 = some { host := "1.2.3.4", port := 8333 } := by decide

/-- C5 counterexample: on a connecting pool whose eligible discovery-method
set is permanently empty, the failure path does not terminate — the
synchronous `_connectPeer`/`_onConnection` recursion exhausts every fuel
bound. -/
theorem no_methods_connecting_diverges :
    c5pg.connecting = true ∧ getPeerArray c5pg = [] ∧
    ¬ ∃ (fuel : Nat) (pg' : PeerGroup), connectPeer fuel c5pg = some pg' := by
  refine ⟨rfl, by decide, ?_⟩
  rintro ⟨fuel, pg', h⟩
  rw [connectPeer_noMethods_diverges fuel c5pg (by decide) rfl] at h
  cases h

/-- C5 (amended): with an empty eligible method set the attempt fails
immediately with the "No methods available to get new peers" `connectError`;
when the pool is not connecting this terminates after that single event, but
while connecting the error path immediately chains another attempt, so the
recursion never terminates. -/
theorem no_methods_failure_semantics (pg : PeerGroup) (fuel : Nat)
    (hm : getPeerArray pg = []) :
    (pg.connecting = false →
       connectPeer (fuel+1) pg =
         some { pg with connectCalls := pg.connectCalls + 1,
                        events := pg.events ++
                          [PGEvent.connectError "No methods available to get new peers" none] }) ∧
    (pg.connecting = true → connectPeer fuel pg = none) :=
  ⟨fun hc => connectPeer_noMethods_stopped fuel pg hm hc,
   fun hc => connectPeer_noMethods_diverges fuel pg hm hc⟩

/-- C5 witness: the amended theorem at concrete stopped and connecting
pools with no discovery methods. -/
theorem no_methods_failure_semantics_witness :
    getPeerArray c5pgStopped = [] ∧ getPeerArray c5pg = [] ∧
    connectPeer 1 c5pgStopped =
      some { c5pgStopped with
             connectCalls := 1,
             events := [PGEvent.connectError "No methods available to get new peers" none] } ∧
    connectPeer 3 c5pg = none := by
  refine ⟨by decide, by decide, ?_, ?_⟩
  · exact (no_methods_failure_semantics c5pgStopped 0 (by decide)).1 rfl
  · exact (no_methods_failure_semantics c5pg 3 (by decide)).2 rfl

/-- C6 counterexample: constructing with `connectTimeout: 0` yields the
default 5000ms timeout (the `||` default treats 0 as absent), a subsequent
attempt does start a timer, and that timer firing emits the
"Connection timed out" `connectError`. -/
theorem connectTimeout_zero_counterexample :
    (mkPeerGroup (some staticParams) c6opts false).toOption.map (fun pg => pg.connectTimeout) =
      some 5000 ∧
    (connectPeer 1 c6pg).map (fun pg => pg.attemptRecs) = some [⟨true, true, false⟩] ∧
    ((connectPeer 1 c6pg).bind (fun pg => fireTimer 1 pg 0)).map (fun pg => pg.events) =
      some [PGEvent.connectError "Connection timed out" none] := by decide

/-- C6 (amended): the constructor maps an absent or zero `connectTimeout`
option to the 5000ms default, so construction cannot disable the timeout;
the timeout race is skipped only when the pool's `connectTimeout` field is
itself 0 at attempt time, in which case the attempt is issued with no timer
and its timer step can never act. -/
theorem connectTimeout_zero_semantics (opts : PGOpts) (params? : Option NetworkParams)
    (browser : Bool) (pg pgA : PeerGroup) (fuel : Nat) :
    ((opts.connectTimeout = none ∨ opts.connectTimeout = some 0) →
       mkPeerGroup params? opts browser = Except.ok pg → pg.connectTimeout = 5000) ∧
    (pgA.connectTimeout = 0 → getPeerArray pgA ≠ [] →
       connectPeer (fuel+1) pgA =
         some { pgA with connectCalls := pgA.connectCalls + 1,
                         attemptRecs := pgA.attemptRecs ++ [⟨false, false, false⟩] } ∧
       (∀ fuel2 : Nat,
          fireTimer fuel2
            { pgA with connectCalls := pgA.connectCalls + 1,
                       attemptRecs := pgA.attemptRecs ++ [⟨false, false, false⟩] }
            pgA.attemptRecs.length =
          some { pgA with connectCalls := pgA.connectCalls + 1,
                          attemptRecs := pgA.attemptRecs ++ [⟨false, false, false⟩] })) := by
  constructor
  · intro h0 hok
    obtain ⟨p, -, -, -, -, hpg⟩ := mkPeerGroup_ok params? opts browser pg hok
    rw [hpg]
    show jsOrNat opts.connectTimeout 5000 = 5000
    rcases h0 with h0 | h0 <;> rw [h0] <;> rfl
  · intro h0 hne
    have hof : issueAttempt { pgA with connectCalls := pgA.connectCalls + 1 } =
        { pgA with connectCalls := pgA.connectCalls + 1,
                   attemptRecs := pgA.attemptRecs ++ [⟨false, false, false⟩] } := by
      unfold issueAttempt
      rw [if_pos (show ({ pgA with connectCalls := pgA.connectCalls + 1 } :
        PeerGroup).connectTimeout = 0 from h0)]
    constructor
    · rw [connectPeer_issue fuel pgA hne, hof]
    · intro fuel2
      exact fireTimer_inactive fuel2 _ _ ⟨false, false, false⟩
        (List.getElem?_concat_length pgA.attemptRecs ⟨false, false, false⟩) rfl

/-- C6 witness: the amended theorem at the constructed pool and at a pool
whose `connectTimeout` field is 0. -/
theorem connectTimeout_zero_semantics_witness :
    c6pgZero.connectTimeout = 0 ∧ getPeerArray c6pgZero ≠ [] ∧
    c6pgBuilt.connectTimeout = 5000 ∧
    (connectPeer 1 c6pgZero =
       some { c6pgZero with connectCalls := c6pgZero.connectCalls + 1,
                            attemptRecs := c6pgZero.attemptRecs ++ [⟨false, false, false⟩] } ∧
     (∀ fuel2 : Nat,
        fireTimer fuel2
          { c6pgZero with connectCalls := c6pgZero.connectCalls + 1,
                          attemptRecs := c6pgZero.attemptRecs ++ [⟨false, false, false⟩] }
          c6pgZero.attemptRecs.length =
        some { c6pgZero with connectCalls := c6pgZero.connectCalls + 1,
                             attemptRecs := c6pgZero.attemptRecs ++ [⟨false, false, false⟩] })) := by
  have h := connectTimeout_zero_semantics c6opts (some staticParams) false c6pgBuilt c6pgZero 0
  refine ⟨rfl, by decide, ?_, ?_⟩
  · exact h.1 (Or.inr rfl) rfl
  · exact h.2 rfl (by decide)

/-- C7: within a single attempt carrying an armed timer, only one of
method success, method failure, or timeout is ever acted upon: if the timer
fires first it emits exactly one timeout `connectError`, latches the attempt
as timed out, and any later completion of the discovery method is a complete
no-op on the pool; if the completion arrives first the timer is cleared and
its firing is a no-op. -/
theorem attempt_settles_at_most_once (pg : PeerGroup) (i : Nat) (a : Attempt) (fuel : Nat)
    (hget : pg.attemptRecs[i]? = some a)
    (hT : a.hasTimer = true) (hAct : a.timerActive = true) (hTO : a.timedOut = false)
    (hne : getPeerArray pg ≠ []) :
    (∃ pg', fireTimer (fuel+1) pg i = some pg' ∧
       pg'.events = pg.events ++ [PGEvent.connectError "Connection timed out" none] ∧
       pg'.attemptRecs[i]? = some ⟨true, false, true⟩ ∧
       (∀ (fuel2 : Nat) (res : Except String Unit), completeMethod fuel2 pg' i res = some pg')) ∧
    (∀ (fuel2 : Nat) (res : Except String Unit), ∃ pg'',
       completeMethod (fuel2+1) pg i res = some pg'' ∧
       pg''.attemptRecs[i]? = some ⟨true, false, false⟩ ∧
       (∀ fuel3 : Nat, fireTimer fuel3 pg'' i = some pg'')) := by
  obtain ⟨hi, -⟩ := List.getElem?_eq_some_iff.mp hget
  obtain ⟨aT, aA, aO⟩ := a
  have hT' : aT = true := hT
  have hA' : aA = true := hAct
  have hO' : aO = false := hTO
  subst hT'
  subst hA'
  subst hO'
  constructor
  · by_cases hc : pg.connecting = true
    · have hneB : getPeerArray
          ({ pg with
             attemptRecs := pg.attemptRecs.set i ⟨true, false, true⟩,
             events := pg.events ++ [PGEvent.connectError "Connection timed out" none] } :
            PeerGroup) ≠ [] := by
        rw [getPeerArray_congr rfl rfl rfl rfl]
        exact hne
      have hrun : fireTimer (fuel+1) pg i =
          some (issueAttempt
            { pg with
              attemptRecs := pg.attemptRecs.set i ⟨true, false, true⟩,
              events := pg.events ++ [PGEvent.connectError "Connection timed out" none],
              connectCalls := pg.connectCalls + 1 }) := by
        simp only [fireTimer, hget]
        rw [if_pos trivial, if_pos hc]
        exact connectPeer_issue fuel _ hneB
      have hb : (issueAttempt
          { pg with
            attemptRecs := pg.attemptRecs.set i ⟨true, false, true⟩,
            events := pg.events ++ [PGEvent.connectError "Connection timed out" none],
            connectCalls := pg.connectCalls + 1 }).attemptRecs[i]? =
          some ⟨true, false, true⟩ := by
        obtain ⟨r, hr⟩ := issueAttempt_attemptRecs
          { pg with
            attemptRecs := pg.attemptRecs.set i ⟨true, false, true⟩,
            events := pg.events ++ [PGEvent.connectError "Connection timed out" none],
            connectCalls := pg.connectCalls + 1 }
        refine getq_append_keep hr ?_
        show (pg.attemptRecs.set i (⟨true, false, true⟩ : Attempt))[i]? =
          some ⟨true, false, true⟩
        exact List.getElem?_set_self hi
      have hev : (issueAttempt
          { pg with
            attemptRecs := pg.attemptRecs.set i ⟨true, false, true⟩,
            events := pg.events ++ [PGEvent.connectError "Connection timed out" none],
            connectCalls := pg.connectCalls + 1 }).events =
          pg.events ++ [PGEvent.connectError "Connection timed out" none] := by
        rw [issueAttempt_events]
      exact ⟨_, hrun, hev, hb,
        fun fuel2 res => completeMethod_timedOut fuel2 _ i res ⟨true, false, true⟩ hb rfl rfl⟩
    · have hrun : fireTimer (fuel+1) pg i =
          some { pg with
                 attemptRecs := pg.attemptRecs.set i ⟨true, false, true⟩,
                 events := pg.events ++ [PGEvent.connectError "Connection timed out" none] } := by
        simp only [fireTimer, hget]
        rw [if_pos trivial, if_neg hc]
      have hb : ({ pg with
          attemptRecs := pg.attemptRecs.set i ⟨true, false, true⟩,
          events := pg.events ++ [PGEvent.connectError "Connection timed out" none] } :
            PeerGroup).attemptRecs[i]? = some ⟨true, false, true⟩ := by
        show (pg.attemptRecs.set i (⟨true, false, true⟩ : Attempt))[i]? =
          some ⟨true, false, true⟩
        exact List.getElem?_set_self hi
      exact ⟨_, hrun, rfl, hb,
        fun fuel2 res => completeMethod_timedOut fuel2 _ i res ⟨true, false, true⟩ hb rfl rfl⟩
  · intro fuel2 res
    have hstep : completeMethod (fuel2+1) pg i res =
        onConnection (fuel2+1)
          { pg with attemptRecs := pg.attemptRecs.set i ⟨true, false, false⟩ } res := by
      simp only [completeMethod, hget]
      rw [if_pos trivial, if_neg (show ¬ false = true by decide)]
    have hneS : getPeerArray
        ({ pg with attemptRecs := pg.attemptRecs.set i ⟨true, false, false⟩ } :
          PeerGroup) ≠ [] := by
      rw [getPeerArray_congr rfl rfl rfl rfl]
      exact hne
    obtain ⟨pg'', h2⟩ := onConnection_some fuel2
      { pg with attemptRecs := pg.attemptRecs.set i ⟨true, false, false⟩ } res hneS
    have hb : pg''.attemptRecs[i]? = some ⟨true, false, false⟩ := by
      obtain ⟨t, ht⟩ := onConnection_attemptRecs_append (fuel2+1)
        { pg with attemptRecs := pg.attemptRecs.set i ⟨true, false, false⟩ } pg'' res h2
      refine getq_append_keep ht ?_
      show (pg.attemptRecs.set i (⟨true, false, false⟩ : Attempt))[i]? =
        some ⟨true, false, false⟩
      exact List.getElem?_set_self hi
    exact ⟨pg'', hstep.trans h2, hb,
      fun fuel3 => fireTimer_inactive fuel3 pg'' i ⟨true, false, false⟩ hb rfl⟩

/-- C7 witness: the theorem at a connecting pool holding one freshly issued
timed attempt. -/
theorem attempt_settles_at_most_once_witness :
    c7pg.attemptRecs[0]? = some ⟨true, true, false⟩ ∧
    getPeerArray c7pg ≠ [] ∧
    (∃ pg', fireTimer 1 c7pg 0 = some pg' ∧
       pg'.events = c7pg.events ++ [PGEvent.connectError "Connection timed out" none] ∧
       pg'.attemptRecs[0]? = some ⟨true, false, true⟩ ∧
       (∀ (fuel2 : Nat) (res : Except String Unit), completeMethod fuel2 pg' 0 res = some pg')) ∧
    (∀ (fuel2 : Nat) (res : Except String Unit), ∃ pg'',
       completeMethod (fuel2+1) c7pg 0 res = some pg'' ∧
       pg''.attemptRecs[0]? = some ⟨true, false, false⟩ ∧
       (∀ fuel3 : Nat, fireTimer fuel3 pg'' 0 = some pg'')) := by
  have h := attempt_settles_at_most_once c7pg 0 ⟨true, true, false⟩ 0
    (by decide) rfl rfl rfl (by decide)
  exact ⟨by decide, by decide, h.1, h.2⟩

/-- C8: with `hardLimit` set and the invariant in force, every `addPeer`
admission keeps the peer set within `targetPeerCount`, and when the push
overflows it is exactly the front-of-list (earliest-admitted) peer that is
removed and disconnected — strictly FIFO eviction. -/
theorem hardLimit_fifo_eviction (pg : PeerGroup) (p : PeerArg)
    (hHL : pg.hardLimit = true) (hpos : 0 < pg.numPeers)
    (hinv : pg.peers.length ≤ pg.numPeers) :
    (addPeer pg p).peers.length ≤ pg.numPeers ∧
    (pg.peers.length < pg.numPeers →
       (addPeer pg p).peers = pg.peers ++ [p.pid] ∧
       (addPeer pg p).disconnectCalls = pg.disconnectCalls) ∧
    (pg.peers.length = pg.numPeers →
       (addPeer pg p).peers = pg.peers.tail ++ [p.pid] ∧
       (addPeer pg p).disconnectCalls = pg.disconnectCalls ++ [pg.peers.headI]) := by
  by_cases hr : p.ready = true
  · have hred : addPeer pg p = admitPeer pg p.pid := by
      unfold addPeer
      rw [if_pos hr]
    rw [hred]
    exact admitPeer_core pg p.pid hHL hpos hinv
  · have hred : addPeer pg p =
        admitPeer { pg with onceReadyCallbacks := pg.onceReadyCallbacks ++ [p.pid] } p.pid := by
      unfold addPeer
      rw [if_neg hr]
    rw [hred]
    exact admitPeer_core { pg with onceReadyCallbacks := pg.onceReadyCallbacks ++ [p.pid] }
      p.pid hHL hpos hinv

/-- C8 witness: target 2 with `hardLimit`, admitting peers 1, 2, 3 — peer 1
is evicted and disconnected when 3 is admitted, leaving `[2, 3]`. -/
theorem hardLimit_fifo_eviction_witness :
    (addPeer (addPeer c8pg ⟨1, true⟩) ⟨2, true⟩).hardLimit = true ∧
    (addPeer (addPeer c8pg ⟨1, true⟩) ⟨2, true⟩).peers = [1, 2] ∧
    (addPeer (addPeer (addPeer c8pg ⟨1, true⟩) ⟨2, true⟩) ⟨3, true⟩).peers = [2, 3] ∧
    (addPeer (addPeer (addPeer c8pg ⟨1, true⟩) ⟨2, true⟩) ⟨3, true⟩).disconnectCalls = [1] := by
  have h := hardLimit_fifo_eviction (addPeer (addPeer c8pg ⟨1, true⟩) ⟨2, true⟩) ⟨3, true⟩
    (by decide) (by decide) (by decide)
  obtain ⟨-, -, h3⟩ := h
  obtain ⟨hp, hd⟩ := h3 (by decide)
  refine ⟨by decide, by decide, ?_, ?_⟩
  · rw [hp]
    decide
  · rw [hd]
    decide

/-- C9: `disconnect()` clears the connecting flag and calls `disconnect` on
every peer in the set; once the flag is false, no discovery completion,
discovery failure, connect timeout, pre-admission handshake failure, or
peer-initiated disconnect issues a new `_connectPeer` call, and the flag
stays false. -/
theorem disconnect_stops_refill (q pg : PeerGroup) (h : pg.connecting = false) :
    (disconnect q).connecting = false ∧
    (disconnect q).disconnectCalls = q.disconnectCalls ++ q.peers ∧
    (∀ (fuel : Nat) (res : Except String Unit) (pg' : PeerGroup),
       onConnection fuel pg res = some pg' →
         pg'.connectCalls = pg.connectCalls ∧ pg'.connecting = false) ∧
    (∀ (fuel i : Nat) (pg' : PeerGroup),
       fireTimer fuel pg i = some pg' →
         pg'.connectCalls = pg.connectCalls ∧ pg'.connecting = false) ∧
    (∀ (fuel i : Nat) (res : Except String Unit) (pg' : PeerGroup),
       completeMethod fuel pg i res = some pg' →
         pg'.connectCalls = pg.connectCalls ∧ pg'.connecting = false) ∧
    (∀ (fuel pid : Nat) (msg : String) (pg' : PeerGroup),
       pendingPeerError fuel pg pid msg = some pg' →
         pg'.connectCalls = pg.connectCalls ∧ pg'.connecting = false) ∧
    (∀ (fuel pid : Nat) (pg' : PeerGroup),
       onPeerDisconnect fuel pg pid = some pg' →
         pg'.connectCalls = pg.connectCalls ∧ pg'.connecting = false) :=
  ⟨rfl, rfl,
   fun fuel res pg' hr => onConnection_stopped fuel pg pg' res h hr,
   fun fuel i pg' hr => fireTimer_stopped fuel pg pg' i h hr,
   fun fuel i res pg' hr => completeMethod_stopped fuel pg pg' i res h hr,
   fun fuel pid msg pg' hr => pendingPeerError_stopped fuel pg pg' pid msg h hr,
   fun fuel pid pg' hr => onPeerDisconnect_stopped fuel pg pg' pid h hr⟩

/-- C9 witness: the theorem at a concrete shut-down pool. -/
theorem disconnect_stops_refill_witness :
    c9pg.connecting = false ∧
    (disconnect c9q).connecting = false ∧
    (disconnect c9q).disconnectCalls = [4, 5] ∧
    (∀ (fuel pid : Nat) (pg' : PeerGroup),
       onPeerDisconnect fuel c9pg pid = some pg' →
         pg'.connectCalls = c9pg.connectCalls ∧ pg'.connecting = false) := by
  have h := disconnect_stops_refill c9q c9pg rfl
  refine ⟨rfl, h.1, ?_, h.2.2.2.2.2.2⟩
  rw [h.2.1]
  decide

/-- C10 counterexample: a params object whose `defaultPort` is present and
non-null but `0` (falsy) is rejected by construction with the configuration
error, refuting "present (non-null) suffices". -/
theorem construction_truthiness_counterexample :
    c10params.id = some "main" ∧ c10params.magic = some 1 ∧ c10params.defaultPort = some 0 ∧
    errorOf (mkPeerGroup (some c10params) {} false) = some "Invalid network parameters" := by
  exact ⟨rfl, rfl, rfl, by decide⟩

/-- C10 (amended): construction succeeds exactly when the params object is
present with truthy `id`, non-null `magic` (0 allowed), and truthy
`defaultPort` (0 rejected); otherwise it throws "Invalid network parameters"
and produces no state, and on success the pool starts empty and
non-connecting with the option-derived fields. -/
theorem construction_validation_semantics (params? : Option NetworkParams) (opts : PGOpts)
    (browser : Bool) :
    ((∃ pg, mkPeerGroup params? opts browser = Except.ok pg) ↔
       ∃ p, params? = some p ∧ truthyStrOpt p.id = true ∧ p.magic.isNone = false ∧
         truthyNatOpt p.defaultPort = true) ∧
    ((¬ ∃ p, params? = some p ∧ truthyStrOpt p.id = true ∧ p.magic.isNone = false ∧
         truthyNatOpt p.defaultPort = true) →
       mkPeerGroup params? opts browser = Except.error "Invalid network parameters") ∧
    (∀ pg, mkPeerGroup params? opts browser = Except.ok pg →
       pg.peers = [] ∧ pg.connecting = false ∧
       pg.numPeers = jsOrNat opts.numPeers 8 ∧
       pg.hardLimit = opts.hardLimit.getD false ∧
       pg.connectTimeout = jsOrNat opts.connectTimeout 5000) := by
  refine ⟨⟨?_, ?_⟩, ?_, ?_⟩
  · rintro ⟨pg, hok⟩
    obtain ⟨p, hp, h1, h2, h3, -⟩ := mkPeerGroup_ok params? opts browser pg hok
    exact ⟨p, hp, h1, h2, h3⟩
  · rintro ⟨p, hp, h1, h2, h3⟩
    subst hp
    have hC : ¬ (!truthyStrOpt p.id || p.magic.isNone || !truthyNatOpt p.defaultPort) = true := by
      simp [h1, h2, h3]
    refine ⟨{ params := p, browser := browser, numPeers := jsOrNat opts.numPeers 8,
              hardLimit := opts.hardLimit.getD false, connectWeb := opts.connectWeb.getD browser,
              connectTimeout := jsOrNat opts.connectTimeout 5000,
              handshakeTimeout := jsOrNat opts.handshakeTimeout 5000 }, ?_⟩
    simp only [mkPeerGroup, assertParams]
    rw [if_neg hC]
  · intro hbad
    exact mkPeerGroup_error params? opts browser hbad
  · intro pg hok
    obtain ⟨p, -, -, -, -, hpg⟩ := mkPeerGroup_ok params? opts browser pg hok
    rw [hpg]
    exact ⟨rfl, rfl, rfl, rfl, rfl⟩

/-- C10 witness: the amended theorem at valid mainnet-like params. -/
theorem construction_validation_semantics_witness :
    (∃ pg, mkPeerGroup (some demoParams) {} false = Except.ok pg) ∧
    (∀ pg, mkPeerGroup (some demoParams) {} false = Except.ok pg →
       pg.peers = [] ∧ pg.connecting = false ∧
       pg.numPeers = jsOrNat ({} : PGOpts).numPeers 8 ∧
       pg.hardLimit = (({} : PGOpts).hardLimit).getD false ∧
       pg.connectTimeout = jsOrNat ({} : PGOpts).connectTimeout 5000) := by
  have h := construction_validation_semantics (some demoParams) {} false
  exact ⟨h.1.mpr ⟨demoParams, rfl, by decide, by decide, by decide⟩, h.2.2⟩

end BitcoinNet
